import Mathlib

/-!
Shallow embedding of the pychan channel core (src/lib.rs) and the
byte-stream reader adapter (src/reader.rs).

The channel core is a `PyChanInner` shared by every sender and receiver
handle: a bounded `ArrayQueue` of items, an atomic close flag, and a
single-slot `AtomicWaker`.  Since all handle methods act only on the shared
inner state, each operation is embedded as a pure function from the inner
state to a result together with the updated state; wakers are abstract
tokens (`Nat`), and an operation additionally reports which waker token it
woke (the `AtomicWaker.wake` call consumes the registered waker, so at most
one token per call).  Items are opaque; for the byte reader they are byte
chunks, modelled as `List Nat`.
-/

deriving instance DecidableEq for Except

namespace PyChan

/-- Model of `crossbeam_queue::ArrayQueue<T>`: a fixed-capacity FIFO queue.
The item list is kept oldest-first: `push` appends at the tail, `pop`
removes the head. -/
structure ArrayQueue (α : Type) where
  capacity : Nat
  items : List α
deriving DecidableEq, Repr

/-- Embeds `ArrayQueue::new(cap)`: it asserts `cap > 0` ("capacity must be non-zero")
and panics on capacity 0; the panic is modelled as `none`. -/
def ArrayQueue.new (α : Type) (capacity : Nat) : Option (ArrayQueue α) :=
  if capacity = 0 then none else some ⟨capacity, []⟩

/-- Embeds `ArrayQueue::push`: fails (returning the item back) iff the queue is at
capacity; otherwise appends the item at the tail. -/
def ArrayQueue.push (q : ArrayQueue α) (item : α) : Except α (ArrayQueue α) :=
  if q.items.length = q.capacity then Except.error item
  else Except.ok ⟨q.capacity, q.items ++ [item]⟩

/-- Embeds `ArrayQueue::pop`: removes and returns the oldest item, if any. -/
def ArrayQueue.pop (q : ArrayQueue α) : Option α × ArrayQueue α :=
  match q.items with
  | [] => (none, q)
  | x :: xs => (some x, ⟨q.capacity, xs⟩)

/-- Embeds `ArrayQueue::is_full`. -/
def ArrayQueue.is_full (q : ArrayQueue α) : Bool :=
  q.items.length = q.capacity

/-- Embeds `ArrayQueue::is_empty`. -/
def ArrayQueue.is_empty (q : ArrayQueue α) : Bool :=
  q.items.isEmpty

/-- The error enum of src/lib.rs. -/
inductive Error where
  | QueueFull
  | Closed
deriving DecidableEq, Repr

/-- Embeds `PyChanInner<T>`: the shared channel core.  The waker slot holds at
most one abstract waker token. -/
structure PyChanInner (α : Type) where
  buf : ArrayQueue α
  closed : Bool
  waker : Option Nat
deriving DecidableEq, Repr

/-- Embeds `PyChanInner::new(capacity)`: a fresh open channel with an empty queue;
`none` models the `ArrayQueue::new` panic on capacity 0. -/
def PyChanInner.new (α : Type) (capacity : Nat) : Option (PyChanInner α) :=
  (ArrayQueue.new α capacity).map fun q => ⟨q, false, none⟩

/-- Embeds `PyChanInner::is_closed`. -/
def PyChanInner.is_closed (c : PyChanInner α) : Bool :=
  c.closed

/-- Embeds `pub fn channel(capacity)`: builds the shared inner state that both
returned handles point to (the handles hold no state of their own). -/
def channel (α : Type) (capacity : Nat) : Option (PyChanInner α) :=
  PyChanInner.new α capacity

/-- Result of `PySender::start_send`: the returned `Result`, the updated
channel state, and the waker token woken by the unconditional
`waker.wake()` call (if one was registered). -/
structure SendOut (α : Type) where
  res : Except Error Unit
  chan : PyChanInner α
  woken : Option Nat
deriving DecidableEq, Repr

/-- Embeds `PySender::start_send`: pushes the item, mapping a push failure to
`Error::QueueFull`, then wakes the registered waker unconditionally
(`self.inner.waker.wake()` runs whether or not the push succeeded). -/
def start_send (c : PyChanInner α) (item : α) : SendOut α :=
  match c.buf.push item with
  | Except.ok q => ⟨Except.ok (), { c with buf := q, waker := none }, c.waker⟩
  | Except.error _ => ⟨Except.error Error.QueueFull, { c with waker := none }, c.waker⟩

/-- Poll result carrying the `Result<(), Error>` payload of the sink
methods. -/
inductive ReadyPoll where
  | pending
  | ready (res : Except Error Unit)
deriving DecidableEq, Repr

/-- Embeds `PySender::poll_ready`: ready when the queue is not full; otherwise
registers the caller's waker and returns `Pending`. -/
def poll_ready (c : PyChanInner α) (w : Nat) : ReadyPoll × PyChanInner α :=
  if c.buf.is_full then (ReadyPoll.pending, { c with waker := some w })
  else (ReadyPoll.ready (Except.ok ()), c)

/-- Embeds `PySender::poll_flush`: always ready with `Ok(())`; its only effect is
an extra wake of any registered waker. -/
def poll_flush (c : PyChanInner α) : ReadyPoll × PyChanInner α × Option Nat :=
  (ReadyPoll.ready (Except.ok ()), { c with waker := none }, c.waker)

/-- Embeds `PySender::poll_close`: stores `true` into the close flag, wakes any
registered waker, and is always ready with `Ok(())`. -/
def poll_close (c : PyChanInner α) : ReadyPoll × PyChanInner α × Option Nat :=
  (ReadyPoll.ready (Except.ok ()), { c with closed := true, waker := none }, c.waker)

/-- Poll result of `PyReceiver::poll_next` (`Poll<Option<Item>>`). -/
inductive NextPoll (α : Type) where
  | pending
  | ready (item : Option α)
deriving DecidableEq, Repr

/-- Embeds `PyReceiver::poll_next`: pops the oldest item if present (regardless of
the close flag); on an empty queue returns end-of-stream when closed, else
registers the caller's waker and returns `Pending`. -/
def poll_next (c : PyChanInner α) (w : Nat) : NextPoll α × PyChanInner α :=
  match c.buf.pop with
  | (some item, q) => (NextPoll.ready (some item), { c with buf := q })
  | (none, _) =>
    if c.is_closed then (NextPoll.ready none, c)
    else (NextPoll.pending, { c with waker := some w })

/-- Embeds `PyBytesReaderScratch`: a partially delivered chunk together with the
number of its bytes already copied out (`cursor`). -/
structure PyBytesReaderScratch where
  cursor : Nat
  bytes : List Nat
deriving DecidableEq, Repr

/-- Embeds `PyBytesReader` (src/reader.rs): wraps the shared channel core of the
receiver it was built from, plus the scratch cell. -/
structure PyBytesReader where
  chan : PyChanInner (List Nat)
  scratch : Option PyBytesReaderScratch
deriving DecidableEq, Repr

/-- Embeds `PyBytesReceiver::into_reader` and `PyBytesReader::new`: fresh reader
over a channel, with an empty scratch cell. -/
def PyBytesReader.new (chan : PyChanInner (List Nat)) : PyBytesReader :=
  ⟨chan, none⟩

/-- Embeds `PyBytesReader::has_items`: true iff the channel queue is non-empty or
the scratch cell is occupied (the take/store pair in the source leaves the
scratch unchanged). -/
def has_items (r : PyBytesReader) : Bool :=
  !r.chan.buf.is_empty || r.scratch.isSome

/-- Poll result of `PyBytesReader::poll_read`: `ready out` stands for
`Poll::Ready(Ok(n))` where `out` lists the `n` bytes written into the
caller's buffer (the source never constructs an `Err`). -/
inductive ReadPoll where
  | pending
  | ready (out : List Nat)
deriving DecidableEq, Repr

/-- Outcome of the pop-and-copy loop of `poll_read`: the queue left behind,
the scratch stored by the loop (if it broke on a partially copied chunk),
and the bytes written to the caller's buffer. -/
structure LoopOut where
  queue : List (List Nat)
  scratch : Option PyBytesReaderScratch
  out : List Nat
deriving DecidableEq, Repr

/-- The `while let Some(bytes) = self.chan.buf.pop()` loop of `poll_read`:
pops chunks while the queue is non-empty, copying each into the remaining
buffer space (`buf.write` writes `min space len` bytes); when a chunk does
not fit entirely, it is stashed in the scratch cell with cursor `m` and the
loop breaks. -/
def readLoop : List (List Nat) → Nat → LoopOut
  | [], _ => ⟨[], none, []⟩
  | chunk :: rest, space =>
    let m := min space chunk.length
    if m < chunk.length then ⟨rest, some ⟨m, chunk⟩, chunk.take m⟩
    else
      let r := readLoop rest (space - m)
      ⟨r.queue, r.scratch, chunk.take m ++ r.out⟩

/-- Embeds `PyBytesReader::poll_read`, with the caller's buffer represented by its
free size `space` and the written bytes returned in the poll result.
First the empty-and-closed / empty-and-open gate via `has_items`; then the
scratch cell is drained into the buffer (`buf.write(&bytes_slice[cursor..])`
writes `n = min space (len - cursor)` bytes; if the chunk is still not
exhausted the updated scratch is stored back and the call returns); then
the pop-and-copy loop runs on the remaining space. -/
def poll_read (r : PyBytesReader) (w : Nat) (space : Nat) : ReadPoll × PyBytesReader :=
  if has_items r = false then
    if r.chan.is_closed then (ReadPoll.ready [], r)
    else (ReadPoll.pending, { r with chan := { r.chan with waker := some w } })
  else
    match r.scratch with
    | some ⟨cursor, bytes⟩ =>
      let n := min space (bytes.length - cursor)
      let out := (bytes.drop cursor).take n
      if bytes.length - cursor - n ≠ 0 then
        (ReadPoll.ready out, { r with scratch := some ⟨cursor + n, bytes⟩ })
      else
        let lo := readLoop r.chan.buf.items (space - n)
        (ReadPoll.ready (out ++ lo.out),
          ⟨{ r.chan with buf := ⟨r.chan.buf.capacity, lo.queue⟩ }, lo.scratch⟩)
    | none =>
      let lo := readLoop r.chan.buf.items space
      (ReadPoll.ready lo.out,
        ⟨{ r.chan with buf := ⟨r.chan.buf.capacity, lo.queue⟩ }, lo.scratch⟩)

/-- Sequential sends: `start_send` each item in turn, `none` as soon as one
fails (every item "successfully sent" means this returns `some`). -/
def sendAll : PyChanInner α → List α → Option (PyChanInner α)
  | c, [] => some c
  | c, x :: xs =>
    match start_send c x with
    | ⟨Except.ok _, c', _⟩ => sendAll c' xs
    | ⟨Except.error _, _, _⟩ => none

/-- Poll `poll_next` up to `n` times, collecting the items yielded; stops
early at `Pending` or end-of-stream. -/
def drainN (w : Nat) : Nat → PyChanInner α → List α × PyChanInner α
  | 0, c => ([], c)
  | n + 1, c =>
    match poll_next c w with
    | (NextPoll.ready (some x), c') =>
      let r := drainN w n c'
      (x :: r.1, r.2)
    | (_, _) => ([], c)

/-- Iterate `poll_read` over a list of caller-buffer sizes, returning the
final reader state. -/
def readSeq (w : Nat) : PyBytesReader → List Nat → PyBytesReader
  | r, [] => r
  | r, k :: ks => readSeq w (poll_read r w k).2 ks

/-- The scratch-cell invariant: an occupied scratch cell always has its
cursor strictly below the stored chunk's length. -/
def ScratchOK : Option PyBytesReaderScratch → Prop
  | none => True
  | some s => s.cursor < s.bytes.length

instance (s : Option PyBytesReaderScratch) : Decidable (ScratchOK s) :=
  match s with
  | none => isTrue trivial
  | some s => inferInstanceAs (Decidable (s.cursor < s.bytes.length))

/-! ## Helper lemmas -/

/-- Closed form of `start_send`: the push fails exactly when the queue is
at capacity; in both cases the registered waker is woken and the slot is
cleared. -/
theorem start_send_eq (c : PyChanInner α) (item : α) :
    start_send c item =
      if c.buf.items.length = c.buf.capacity then
        ⟨Except.error Error.QueueFull, { c with waker := none }, c.waker⟩
      else
        ⟨Except.ok (), { c with buf := ⟨c.buf.capacity, c.buf.items ++ [item]⟩, waker := none },
          c.waker⟩ := by
  by_cases h : c.buf.items.length = c.buf.capacity <;>
    simp [start_send, ArrayQueue.push, h]

/-- If `sendAll` succeeds, the resulting channel has the same capacity and
close flag, with the whole send list appended to the queue. -/
theorem sendAll_some_shape (l : List α) : ∀ c c' : PyChanInner α,
    sendAll c l = some c' →
    c'.buf.capacity = c.buf.capacity ∧ c'.buf.items = c.buf.items ++ l ∧
      c'.closed = c.closed := by
  induction l with
  | nil =>
    intro c c' h
    simp [sendAll] at h
    simp [← h]
  | cons x xs ih =>
    intro c c' h
    rw [sendAll, start_send_eq] at h
    by_cases hfull : c.buf.items.length = c.buf.capacity
    · rw [if_pos hfull] at h
      simp at h
    · rw [if_neg hfull] at h
      have := ih ⟨⟨c.buf.capacity, c.buf.items ++ [x]⟩, c.closed, none⟩ c' h
      simpa using this

/-- If there is room for the whole list, `sendAll` succeeds. -/
theorem sendAll_isSome_of_room (l : List α) : ∀ c : PyChanInner α,
    c.buf.items.length + l.length ≤ c.buf.capacity →
    (sendAll c l).isSome := by
  induction l with
  | nil => intro c _; simp [sendAll]
  | cons x xs ih =>
    intro c h
    rw [sendAll, start_send_eq]
    have hne : ¬ c.buf.items.length = c.buf.capacity := by
      simp at h; omega
    rw [if_neg hne]
    exact ih ⟨⟨c.buf.capacity, c.buf.items ++ [x]⟩, c.closed, none⟩ (by simp at h ⊢; omega)

/-- Draining a closed channel with `poll_next` yields the queued items in
order and leaves the queue empty. -/
theorem drainN_closed (w : Nat) (l : List α) : ∀ c : PyChanInner α,
    c.buf.items = l → c.closed = true →
    drainN w l.length c = (l, ⟨⟨c.buf.capacity, []⟩, c.closed, c.waker⟩) := by
  induction l with
  | nil =>
    intro c h1 h2
    obtain ⟨⟨qc, qi⟩, cl, wk⟩ := c
    simp at h1
    subst h1
    rfl
  | cons x xs ih =>
    intro c h1 h2
    obtain ⟨⟨qc, qi⟩, cl, wk⟩ := c
    simp at h1 h2
    subst h1
    subst h2
    have := ih ⟨⟨qc, xs⟩, true, wk⟩ rfl rfl
    simp [drainN, poll_next, ArrayQueue.pop, PyChanInner.is_closed, this]

/-- Any scratch stored by the pop-and-copy loop has its cursor strictly
below the chunk length: the loop only stashes a chunk when the copy
stopped short of its end. -/
theorem readLoop_scratch_ok (queue : List (List Nat)) : ∀ space,
    ScratchOK (readLoop queue space).scratch := by
  induction queue with
  | nil => intro space; trivial
  | cons chunk rest ih =>
    intro space
    simp only [readLoop]
    split
    · assumption
    · exact ih _

/-- With at least one byte of buffer space and a non-empty head chunk, the
pop-and-copy loop writes at least one byte. -/
theorem readLoop_out_pos (chunk : List Nat) (rest : List (List Nat)) (space : Nat)
    (hsp : 1 ≤ space) (hc : chunk ≠ []) :
    1 ≤ (readLoop (chunk :: rest) space).out.length := by
  have hcl : 1 ≤ chunk.length := List.length_pos.mpr hc
  have hm : 1 ≤ min space chunk.length := le_min hsp hcl
  simp only [readLoop]
  split <;> simp [List.length_take] <;> omega

/-- Lemma: `poll_read` preserves the scratch-cell invariant. -/
theorem poll_read_scratch_ok (r : PyBytesReader) (w space : Nat)
    (h : ScratchOK r.scratch) :
    ScratchOK (poll_read r w space).2.scratch := by
  rw [poll_read]
  split
  · split
    · exact h
    · exact h
  · split
    · next cursor bytes heq =>
      simp only []
      split
      · next hcond =>
        have hn : min space (bytes.length - cursor) ≤ bytes.length - cursor :=
          Nat.min_le_right _ _
        simp only [ScratchOK]
        omega
      · exact readLoop_scratch_ok _ _
    · exact readLoop_scratch_ok _ _

/-! ## Claim theorems -/

/-- Claim C1, counterexample: constructing a channel with capacity 0 does
not return a handle pair; `ArrayQueue::new(0)` fails its non-zero-capacity
assertion (a panic, modelled as `none`). -/
theorem capacity_zero_construction_fails : channel Nat 0 = none := rfl

/-- Claim C1, amended: capacity 0 is rejected by a panic in
`ArrayQueue::new`; for every capacity ≥ 1, construction succeeds and
returns a fresh open channel with an empty queue of that capacity. -/
theorem channel_positive_capacity (α : Type) (capacity : Nat) (h : 1 ≤ capacity) :
    channel α capacity = some ⟨⟨capacity, []⟩, false, none⟩ := by
  have hne : ¬ capacity = 0 := by omega
  simp [channel, PyChanInner.new, ArrayQueue.new, hne]

/-- Witness for `channel_positive_capacity` at capacity 1. -/
theorem channel_positive_capacity_witness :
    channel Nat 1 = some ⟨⟨1, []⟩, false, none⟩ :=
  channel_positive_capacity Nat 1 (by decide)

/-- Claim C2, counterexample: on a full capacity-1 channel with waker token
7 registered, `start_send` fails with `QueueFull` and yet wakes token 7
(the source calls `waker.wake()` unconditionally after the push attempt). -/
theorem failed_send_still_wakes :
    (start_send (⟨⟨1, [0]⟩, false, some 7⟩ : PyChanInner Nat) 1).res =
        Except.error Error.QueueFull ∧
      (start_send (⟨⟨1, [0]⟩, false, some 7⟩ : PyChanInner Nat) 1).woken = some 7 := by
  decide

/-- Claim C2, amended: when a non-blocking send attempt fails with
`QueueFull`, the queue and close flag are unchanged, but the wake is not
suppressed: the registered waiter (if any) is woken all the same — at most
one wake per call, and the waker slot is cleared. -/
theorem start_send_failure_effects (c : PyChanInner α) (item : α)
    (hfail : (start_send c item).res = Except.error Error.QueueFull) :
    (start_send c item).chan.buf = c.buf ∧
    (start_send c item).chan.closed = c.closed ∧
    (start_send c item).woken = c.waker ∧
    (start_send c item).chan.waker = none := by
  rw [start_send_eq] at hfail ⊢
  by_cases h : c.buf.items.length = c.buf.capacity
  · simp [h]
  · simp [h] at hfail

/-- Witness for `start_send_failure_effects` on a full capacity-1
channel. -/
theorem start_send_failure_effects_witness :
    (start_send (⟨⟨1, [5]⟩, true, some 3⟩ : PyChanInner Nat) 9).chan.buf =
        (⟨1, [5]⟩ : ArrayQueue Nat) ∧
      (start_send (⟨⟨1, [5]⟩, true, some 3⟩ : PyChanInner Nat) 9).chan.closed = true ∧
      (start_send (⟨⟨1, [5]⟩, true, some 3⟩ : PyChanInner Nat) 9).woken = some 3 ∧
      (start_send (⟨⟨1, [5]⟩, true, some 3⟩ : PyChanInner Nat) 9).chan.waker = none :=
  start_send_failure_effects (⟨⟨1, [5]⟩, true, some 3⟩ : PyChanInner Nat) 9 (by decide)

/-- Claim C7: `start_send` returns `Err(QueueFull)` iff the queue holds
exactly `capacity` items; on success the item is appended at the tail; the
result is always either `Ok` or exactly `QueueFull`, surfaced verbatim. -/
theorem start_send_queue_full_iff (c : PyChanInner α) (item : α)
    (hinv : c.buf.items.length ≤ c.buf.capacity) :
    ((start_send c item).res = Except.error Error.QueueFull ↔
      c.buf.items.length = c.buf.capacity) ∧
    ((start_send c item).res = Except.ok () →
      (start_send c item).chan.buf.items = c.buf.items ++ [item]) ∧
    ((start_send c item).res = Except.ok () ∨
      (start_send c item).res = Except.error Error.QueueFull) := by
  rw [start_send_eq]
  by_cases h : c.buf.items.length = c.buf.capacity <;> simp [h]

/-- Witness for `start_send_queue_full_iff` on a capacity-2 channel with
one queued item. -/
theorem start_send_queue_full_iff_witness :
    (¬ (start_send (⟨⟨2, [4]⟩, false, none⟩ : PyChanInner Nat) 8).res =
        Except.error Error.QueueFull) ∧
      (start_send (⟨⟨2, [4]⟩, false, none⟩ : PyChanInner Nat) 8).chan.buf.items = [4, 8] :=
  have h := start_send_queue_full_iff (⟨⟨2, [4]⟩, false, none⟩ : PyChanInner Nat) 8 (by decide)
  ⟨fun he => absurd (h.1.mp he) (by decide), h.2.1 (by decide)⟩

/-- Claim C10: the `Closed` error is never produced: `start_send` only ever
returns `Ok` or `QueueFull`, `poll_ready` is pending or `Ready(Ok)`, and
`poll_flush`/`poll_close` always return `Ready(Ok)` (the receive and read
paths carry no error at all in their result types); in particular
`start_send` on a closed channel with queue space succeeds and enqueues
the item. -/
theorem no_closed_error (c : PyChanInner α) (item : α)
    (hclosed : c.closed = true) (hspace : c.buf.items.length < c.buf.capacity) :
    (∀ (c₂ : PyChanInner α) (i₂ : α),
      (start_send c₂ i₂).res ≠ Except.error Error.Closed) ∧
    (∀ (c₂ : PyChanInner α) (w₂ : Nat),
      (poll_ready c₂ w₂).1 = ReadyPoll.pending ∨
        (poll_ready c₂ w₂).1 = ReadyPoll.ready (Except.ok ())) ∧
    (∀ c₂ : PyChanInner α, (poll_flush c₂).1 = ReadyPoll.ready (Except.ok ())) ∧
    (∀ c₂ : PyChanInner α, (poll_close c₂).1 = ReadyPoll.ready (Except.ok ())) ∧
    (start_send c item).res = Except.ok () ∧
    (start_send c item).chan.buf.items = c.buf.items ++ [item] := by
  refine ⟨?_, ?_, fun c₂ => rfl, fun c₂ => rfl, ?_, ?_⟩
  · intro c₂ i₂
    rw [start_send_eq]
    by_cases h : c₂.buf.items.length = c₂.buf.capacity <;> simp [h]
  · intro c₂ w₂
    unfold poll_ready
    by_cases h : c₂.buf.is_full = true <;> simp [h]
  · rw [start_send_eq, if_neg (Nat.ne_of_lt hspace)]
  · rw [start_send_eq, if_neg (Nat.ne_of_lt hspace)]

/-- Witness for `no_closed_error`: a closed capacity-2 channel with one
queued item accepts a further item. -/
theorem no_closed_error_witness :
    (start_send (⟨⟨2, [0]⟩, true, none⟩ : PyChanInner Nat) 1).res = Except.ok () ∧
      (start_send (⟨⟨2, [0]⟩, true, none⟩ : PyChanInner Nat) 1).chan.buf.items = [0, 1] :=
  have h := no_closed_error (⟨⟨2, [0]⟩, true, none⟩ : PyChanInner Nat) 1 rfl (by decide)
  ⟨h.2.2.2.2.1, h.2.2.2.2.2⟩

/-- Claim C6: with chunks `[1,2,3,4,5]` and `[6,7,8]` enqueued and the
channel closed, three `poll_read` calls with a 4-byte buffer return the
first 4 bytes of chunk 1, then the last byte of chunk 1 followed by chunk
2, then 0 bytes (end of stream); the 8 delivered bytes are the
concatenation of the two chunks in order. -/
theorem reader_scratch_scenario :
    (poll_read (⟨⟨⟨2, [[1, 2, 3, 4, 5], [6, 7, 8]]⟩, true, none⟩, none⟩ : PyBytesReader)
        0 4).1 = ReadPoll.ready [1, 2, 3, 4] ∧
      (poll_read (poll_read (⟨⟨⟨2, [[1, 2, 3, 4, 5], [6, 7, 8]]⟩, true, none⟩, none⟩ :
          PyBytesReader) 0 4).2 0 4).1 = ReadPoll.ready [5, 6, 7, 8] ∧
      (poll_read (poll_read (poll_read (⟨⟨⟨2, [[1, 2, 3, 4, 5], [6, 7, 8]]⟩, true, none⟩,
          none⟩ : PyBytesReader) 0 4).2 0 4).2 0 4).1 = ReadPoll.ready [] ∧
      [1, 2, 3, 4] ++ [5, 6, 7, 8] = [1, 2, 3, 4, 5] ++ [6, 7, 8] := by
  decide

/-- Claim C4: `poll_next` returns the oldest queued item immediately
whenever the queue is non-empty, regardless of the close flag; with an
empty queue it returns end-of-sequence when closed (leaving the state
unchanged, so a repeated call returns end-of-sequence again), and when
open it registers the caller's waker and returns `Pending`. -/
theorem poll_next_spec (c : PyChanInner α) (w w' : Nat) :
    (∀ x rest, c.buf.items = x :: rest →
      poll_next c w =
        (NextPoll.ready (some x), { c with buf := ⟨c.buf.capacity, rest⟩ })) ∧
    (c.buf.items = [] → c.closed = true →
      poll_next c w = (NextPoll.ready none, c) ∧
      poll_next (poll_next c w).2 w' = (NextPoll.ready none, c)) ∧
    (c.buf.items = [] → c.closed = false →
      poll_next c w = (NextPoll.pending, { c with waker := some w })) := by
  refine ⟨?_, ?_, ?_⟩
  · intro x rest hx
    simp [poll_next, ArrayQueue.pop, hx]
  · intro hempty hclosed
    have h1 : ∀ u, poll_next c u = (NextPoll.ready none, c) := fun u => by
      simp [poll_next, ArrayQueue.pop, hempty, PyChanInner.is_closed, hclosed]
    exact ⟨h1 w, by rw [h1 w]; exact h1 w'⟩
  · intro hempty hopen
    simp [poll_next, ArrayQueue.pop, hempty, PyChanInner.is_closed, hopen]

/-- Witness for `poll_next_spec`: the three scenarios at concrete
channels. -/
theorem poll_next_spec_witness :
    poll_next (⟨⟨2, [[1], [2]]⟩, true, none⟩ : PyChanInner (List Nat)) 5 =
        (NextPoll.ready (some [1]), ⟨⟨2, [[2]]⟩, true, none⟩) ∧
      poll_next (⟨⟨2, []⟩, true, none⟩ : PyChanInner (List Nat)) 5 =
        (NextPoll.ready none, ⟨⟨2, []⟩, true, none⟩) ∧
      poll_next (⟨⟨2, []⟩, false, none⟩ : PyChanInner (List Nat)) 5 =
        (NextPoll.pending, ⟨⟨2, []⟩, false, some 5⟩) :=
  ⟨(poll_next_spec (⟨⟨2, [[1], [2]]⟩, true, none⟩ : PyChanInner (List Nat)) 5 6).1
      [1] [[2]] rfl,
    ((poll_next_spec (⟨⟨2, []⟩, true, none⟩ : PyChanInner (List Nat)) 5 6).2.1 rfl rfl).1,
    (poll_next_spec (⟨⟨2, []⟩, false, none⟩ : PyChanInner (List Nat)) 5 6).2.2 rfl rfl⟩

/-- Claim C5: round-trip — for every sequence of items successfully sent
into a fresh channel and then a close, draining with `poll_next` yields
exactly those items in order, followed by a repeatable end-of-stream. -/
theorem round_trip (capacity : Nat) (l : List (List Nat)) (w : Nat)
    (c₀ c₁ : PyChanInner (List Nat))
    (hnew : PyChanInner.new (List Nat) capacity = some c₀)
    (hsend : sendAll c₀ l = some c₁) :
    (drainN w l.length (poll_close c₁).2.1).1 = l ∧
    (poll_next (drainN w l.length (poll_close c₁).2.1).2 w).1 = NextPoll.ready none ∧
    (poll_next (poll_next (drainN w l.length (poll_close c₁).2.1).2 w).2 w).1 =
      NextPoll.ready none := by
  by_cases hcap : capacity = 0
  · simp [PyChanInner.new, ArrayQueue.new, hcap] at hnew
  · simp [PyChanInner.new, ArrayQueue.new, hcap] at hnew
    obtain ⟨hshape1, hshape2, hshape3⟩ := sendAll_some_shape l c₀ c₁ hsend
    have hitems : c₁.buf.items = l := by simp [hshape2, ← hnew]
    have hclose : (poll_close c₁).2.1 =
        (⟨⟨c₁.buf.capacity, c₁.buf.items⟩, true, none⟩ : PyChanInner (List Nat)) := rfl
    rw [hclose, drainN_closed w l ⟨⟨c₁.buf.capacity, c₁.buf.items⟩, true, none⟩ hitems rfl]
    refine ⟨rfl, ?_, ?_⟩ <;>
      simp [poll_next, ArrayQueue.pop, PyChanInner.is_closed]

/-- Witness for `round_trip` at capacity 2 with two chunks. -/
theorem round_trip_witness :
    (drainN 0 2 (poll_close (⟨⟨2, [[1], [2, 3]]⟩, false, none⟩ :
        PyChanInner (List Nat))).2.1).1 = [[1], [2, 3]] ∧
      (poll_next (drainN 0 2 (poll_close (⟨⟨2, [[1], [2, 3]]⟩, false, none⟩ :
        PyChanInner (List Nat))).2.1).2 0).1 = NextPoll.ready none ∧
      (poll_next (poll_next (drainN 0 2 (poll_close (⟨⟨2, [[1], [2, 3]]⟩, false, none⟩ :
        PyChanInner (List Nat))).2.1).2 0).2 0).1 = NextPoll.ready none :=
  round_trip 2 [[1], [2, 3]] 0 ⟨⟨2, []⟩, false, none⟩ ⟨⟨2, [[1], [2, 3]]⟩, false, none⟩
    (by decide) (by decide)

/-- Claim C8: after filling a fresh capacity-`C` channel with `C`
successful sends and no intervening receive, `poll_ready` registers the
caller's waker and returns `Pending`; in general `poll_ready` never
reports ready while the queue is full, and proceeds immediately (state
untouched) when it is not full. -/
theorem poll_ready_full_suspends (capacity : Nat) (l : List α) (w : Nat)
    (c c₁ : PyChanInner α)
    (hcap : 1 ≤ capacity) (hlen : l.length = capacity)
    (hnew : PyChanInner.new α capacity = some c)
    (hsend : sendAll c l = some c₁) :
    poll_ready c₁ w = (ReadyPoll.pending, { c₁ with waker := some w }) ∧
    (∀ (c₂ : PyChanInner α) (w₂ : Nat),
      (c₂.buf.items.length = c₂.buf.capacity →
        poll_ready c₂ w₂ = (ReadyPoll.pending, { c₂ with waker := some w₂ })) ∧
      (¬ c₂.buf.items.length = c₂.buf.capacity →
        poll_ready c₂ w₂ = (ReadyPoll.ready (Except.ok ()), c₂))) := by
  have hgen : ∀ (c₂ : PyChanInner α) (w₂ : Nat),
      (c₂.buf.items.length = c₂.buf.capacity →
        poll_ready c₂ w₂ = (ReadyPoll.pending, { c₂ with waker := some w₂ })) ∧
      (¬ c₂.buf.items.length = c₂.buf.capacity →
        poll_ready c₂ w₂ = (ReadyPoll.ready (Except.ok ()), c₂)) := by
    intro c₂ w₂
    constructor <;> intro h <;> simp [poll_ready, ArrayQueue.is_full, h]
  refine ⟨?_, hgen⟩
  have hcap0 : ¬ capacity = 0 := by omega
  simp [PyChanInner.new, ArrayQueue.new, hcap0] at hnew
  obtain ⟨hshape1, hshape2, _⟩ := sendAll_some_shape l c c₁ hsend
  rw [← hnew] at hshape1 hshape2
  exact (hgen c₁ w).1 (by simp [hshape1, hshape2, hlen])

/-- Witness for `poll_ready_full_suspends`: a capacity-1 channel filled by
one send suspends the next ready-check. -/
theorem poll_ready_full_suspends_witness :
    poll_ready (⟨⟨1, [5]⟩, false, none⟩ : PyChanInner Nat) 4 =
      (ReadyPoll.pending, ⟨⟨1, [5]⟩, false, some 4⟩) :=
  (poll_ready_full_suspends 1 [5] 4 ⟨⟨1, []⟩, false, none⟩
    (⟨⟨1, [5]⟩, false, none⟩ : PyChanInner Nat) (by decide) rfl (by decide) (by decide)).1

/-- Claim C3, counterexample: on an open channel holding the chunk `[7]`,
a `poll_read` with a zero-sized caller buffer completes with 0 bytes — it
neither suspends nor returns a byte, although the channel is open and the
queue non-empty. -/
theorem open_reader_zero_byte_read :
    (poll_read (⟨⟨⟨1, [[7]]⟩, false, none⟩, none⟩ : PyBytesReader) 0 0).1 =
        ReadPoll.ready [] ∧
      (⟨⟨⟨1, [[7]]⟩, false, none⟩, none⟩ : PyBytesReader).chan.closed = false := by
  decide

/-- Claim C3, amended: provided the caller buffer has room for at least
one byte, every queued chunk is non-empty, and the scratch cell satisfies
its cursor invariant, a `poll_read` that completes with 0 bytes does so
only when the channel is closed with queue and scratch both empty; while
the channel is open, each call either suspends or returns at least one
byte. -/
theorem poll_read_progress (r : PyBytesReader) (w space : Nat)
    (hspace : 1 ≤ space)
    (hq : ∀ ch ∈ r.chan.buf.items, ch ≠ [])
    (hs : ScratchOK r.scratch) :
    ((poll_read r w space).1 = ReadPoll.ready [] →
      r.chan.closed = true ∧ r.chan.buf.items = [] ∧ r.scratch = none) ∧
    (r.chan.closed = false →
      (poll_read r w space).1 = ReadPoll.pending ∨
        ∃ out, (poll_read r w space).1 = ReadPoll.ready out ∧ 1 ≤ out.length) := by
  have hkey : has_items r = true →
      ∃ out, (poll_read r w space).1 = ReadPoll.ready out ∧ 1 ≤ out.length := by
    intro hhi
    rw [poll_read, hhi]
    simp only [Bool.true_eq_false, if_false]
    cases hsc : r.scratch with
    | none =>
      cases hitems : r.chan.buf.items with
      | nil =>
        rw [has_items, hsc, ArrayQueue.is_empty, hitems] at hhi
        simp at hhi
      | cons chunk rest =>
        refine ⟨_, rfl, ?_⟩
        exact readLoop_out_pos chunk rest space hspace (hq chunk (by rw [hitems]; simp))
    | some s =>
      obtain ⟨cursor, bytes⟩ := s
      rw [hsc] at hs
      have hcur : cursor < bytes.length := hs
      have hn : 1 ≤ min space (bytes.length - cursor) := le_min hspace (by omega)
      simp only []
      split
      · refine ⟨_, rfl, ?_⟩
        simp [List.length_take]
        omega
      · refine ⟨_, rfl, ?_⟩
        simp [List.length_take]
        omega
  constructor
  · intro h0
    by_cases hhi : has_items r = true
    · obtain ⟨out, hout, hlen⟩ := hkey hhi
      rw [h0] at hout
      cases hout
      simp at hlen
    · have hhi' : has_items r = false := by simpa using hhi
      have hempty : r.chan.buf.items = [] ∧ r.scratch = none := by
        rw [has_items, ArrayQueue.is_empty] at hhi'
        simp at hhi'
        exact ⟨hhi'.1, hhi'.2⟩
      by_cases hcl : r.chan.closed = true
      · exact ⟨hcl, hempty⟩
      · have hcl' : r.chan.closed = false := by simpa using hcl
        rw [poll_read, hhi'] at h0
        simp [PyChanInner.is_closed, hcl'] at h0
  · intro hopen
    by_cases hhi : has_items r = true
    · exact Or.inr (hkey hhi)
    · have hhi' : has_items r = false := by simpa using hhi
      left
      rw [poll_read, hhi']
      simp [PyChanInner.is_closed, hopen]

/-- Witness for `poll_read_progress` at a closed, fully drained reader. -/
theorem poll_read_progress_witness :
    (⟨⟨⟨1, []⟩, true, none⟩, none⟩ : PyBytesReader).chan.closed = true ∧
      (⟨⟨⟨1, []⟩, true, none⟩, none⟩ : PyBytesReader).chan.buf.items = [] ∧
      (⟨⟨⟨1, []⟩, true, none⟩, none⟩ : PyBytesReader).scratch = none :=
  (poll_read_progress (⟨⟨⟨1, []⟩, true, none⟩, none⟩ : PyBytesReader) 0 1 (by decide)
    (by simp) trivial).1 (by decide)

/-- Claim C9: starting from any reader state with an empty scratch cell,
after every sequence of `poll_read` calls the scratch cell, when occupied,
has its cursor strictly below the stored chunk's length. -/
theorem scratch_cursor_invariant (w : Nat) (ks : List Nat) (r : PyBytesReader)
    (hstart : r.scratch = none) :
    ScratchOK (readSeq w r ks).scratch := by
  have gen : ∀ (ks : List Nat) (r : PyBytesReader), ScratchOK r.scratch →
      ScratchOK (readSeq w r ks).scratch := by
    intro ks
    induction ks with
    | nil => intro r h; exact h
    | cons k ks ih =>
      intro r h
      exact ih _ (poll_read_scratch_ok r w k h)
  exact gen ks r (by rw [hstart]; trivial)

/-- Witness for `scratch_cursor_invariant`: two 2-byte reads over chunks
of sizes 3 and 1. -/
theorem scratch_cursor_invariant_witness :
    ScratchOK (readSeq 0 (⟨⟨⟨2, [[1, 2, 3], [4]]⟩, false, none⟩, none⟩ : PyBytesReader)
      [2, 2]).scratch :=
  scratch_cursor_invariant 0 [2, 2] ⟨⟨⟨2, [[1, 2, 3], [4]]⟩, false, none⟩, none⟩ rfl

end PyChan
